import Mathlib

/-!
# Verification of the Strava leaderboard enhancement core

Shallow embedding of the record-extraction, pagination-resolution,
page-aggregation and table-sorting logic of the browser extension, together
with proofs about the behaviour its specification claims.

Conventions of the embedding:
* DOM elements are modelled by explicit value structures (`Cell`, `LBRow`):
  a cell carries its trimmed-able text, whether any of the avatar selectors
  match inside it, the text of an athlete-profile link if one is present, and
  the text of its first anchor.
* JavaScript strings are Lean `String`s; the regular expressions used by the
  code are implemented as dedicated scanners over `List Char` with the same
  leftmost-match semantics.
* JavaScript numbers arising from `parseFloat` are modelled as `Rat`
  (every value the code produces is decimal, hence exact); `parseInt`
  results are `Int` with `none` for `NaN`.
* Network fetches are modelled by environments mapping a page number to the
  outcome of the request (`Except Unit (List LBRow)`, the rows of the parsed
  response document, or an error for a non-2xx status / transport failure).
-/

/-- Whitespace as used by the code's `\s`, `trim` on the inputs involved. -/
def isWsChar (c : Char) : Bool :=
  c = ' ' || c = '\t' || c = '\n' || c = '\r' || c = '\x0c' || c = '\x0b'

/-- `String.trim` as used on `textContent` values (`.trim()` in the source). -/
def jsTrim (s : String) : String :=
  ⟨((s.data.dropWhile isWsChar).reverse.dropWhile isWsChar).reverse⟩

/-- Does `hay` contain `needle` as a contiguous substring (JS `includes`)? -/
def listContainsSub (needle : List Char) : List Char → Bool
  | [] => needle.isPrefixOf []
  | c :: rest => needle.isPrefixOf (c :: rest) || listContainsSub needle rest

/-- JS `hay.includes(needle)`. -/
def containsSub (hay needle : String) : Bool :=
  listContainsSub needle.data hay.data

/-- Numeric value of a digit run. -/
def natOfDigits (l : List Char) : Nat :=
  l.foldl (fun acc c => acc * 10 + (c.toNat - '0'.toNat)) 0

/-- Leftmost-match driver: try the matcher at every start position, left to
right, exactly as an unanchored JS regex search does. -/
def scanL {α : Type} (f : List Char → Option α) : List Char → Option α
  | [] => f []
  | c :: rest =>
    match f (c :: rest) with
    | some v => some v
    | none => scanL f rest

/-- Case-insensitive character comparison (the `i` regex flag). -/
def charEqCI (a b : Char) : Bool :=
  a.toLower = b.toLower

/-- Does `l` start with the literal `pat` (case-insensitively if `ci`)? -/
def literalPrefix (pat : List Char) (ci : Bool) (l : List Char) : Bool :=
  match pat, l with
  | [], _ => true
  | _ :: _, [] => false
  | p :: ps, c :: cs => (if ci then charEqCI p c else p = c) && literalPrefix ps ci cs

/-- Does `l` start with one of the unit literals? (regex alternation, first
alternative wins; for prefix testing only success matters). -/
def unitPrefix (units : List String) (ci : Bool) (l : List Char) : Bool :=
  units.any (fun u => literalPrefix u.data ci l)

/-- JS `parseInt` (radix auto-detection for `0x`/`0X`, sign, maximal digit
prefix, `none` for `NaN`).  Inputs at the call sites are already trimmed. -/
def jsParseInt (s : String) : Option Int :=
  let digitsVal : List Char → Option Nat := fun l =>
    let d := l.takeWhile Char.isDigit
    if d.isEmpty then none else some (natOfDigits d)
  let hexVal : List Char → Option Nat := fun l =>
    let d := l.takeWhile (fun c => c.isDigit || ('a' ≤ c.toLower && c.toLower ≤ 'f'))
    if d.isEmpty then none else
      some (d.foldl (fun acc c =>
        acc * 16 + (if c.isDigit then c.toNat - '0'.toNat else c.toLower.toNat - 'a'.toNat + 10)) 0)
  match s.data with
  | '0' :: 'x' :: rest => (hexVal rest).map (fun n => (n : Int))
  | '0' :: 'X' :: rest => (hexVal rest).map (fun n => (n : Int))
  | '-' :: rest => (digitsVal rest).map (fun n => -(n : Int))
  | '+' :: rest => (digitsVal rest).map (fun n => (n : Int))
  | l => (digitsVal l).map (fun n => (n : Int))

/-- JS `parseFloat` restricted to the shapes arising at the call sites
(optional sign, integer digits, optional fraction; no exponents occur).
`none` models `NaN`. -/
def jsParseFloatChars (l : List Char) : Option Rat :=
  let core : Int → List Char → Option Rat := fun sign l =>
    let intD := l.takeWhile Char.isDigit
    let rest := l.dropWhile Char.isDigit
    let fracD :=
      match rest with
      | '.' :: r => r.takeWhile Char.isDigit
      | _ => []
    if intD.isEmpty && fracD.isEmpty then none
    else
      some (mkRat (sign * (natOfDigits intD * 10 ^ fracD.length + natOfDigits fracD))
        (10 ^ fracD.length))
  match l with
  | '-' :: rest => core (-1) rest
  | '+' :: rest => core 1 rest
  | _ => core 1 l

def jsParseFloat (s : String) : Option Rat :=
  jsParseFloatChars s.data

/-- Matcher for `/(\d+):(\d+)/` at one position: maximal digit run, a colon,
a second digit run.  (Backtracking inside `\d+` can never rescue a failed
position, so the maximal run is the only candidate.) -/
def colonPairAt (l : List Char) : Option (Nat × Nat) :=
  let d1 := l.takeWhile Char.isDigit
  if d1.isEmpty then none
  else
    match l.dropWhile Char.isDigit with
    | ':' :: r2 =>
      let d2 := r2.takeWhile Char.isDigit
      if d2.isEmpty then none else some (natOfDigits d1, natOfDigits d2)
    | _ => none

/-- First match of `/(\d+):(\d+)/` in `s` (the two captured numbers). -/
def colonPair (s : String) : Option (Nat × Nat) :=
  scanL colonPairAt s.data

/-- `DOMUtils.parseTimeToSeconds`: first `digits:digits` occurrence read as
minutes and seconds; `0` when the pattern does not match. -/
def parseTimeToSeconds (s : String) : Nat :=
  match colonPair s with
  | some (m, sec) => m * 60 + sec
  | none => 0

/-- Group `(\d+\.?\d*)` at one position: the numeral characters and the rest.
Greedy; no following-context backtracking is needed because the boundary
character after a shortened run could never match `\s*`+unit. -/
def numDotAt (l : List Char) : Option (List Char × List Char) :=
  let d1 := l.takeWhile Char.isDigit
  if d1.isEmpty then none
  else
    match l.dropWhile Char.isDigit with
    | '.' :: r2 =>
      some (d1 ++ '.' :: r2.takeWhile Char.isDigit, r2.dropWhile Char.isDigit)
    | r1 => some (d1, r1)

/-- Group `(\d+,?\d*\.?\d*)` at one position (climbing-speed numerals). -/
def numCommaDotAt (l : List Char) : Option (List Char × List Char) :=
  let d1 := l.takeWhile Char.isDigit
  if d1.isEmpty then none
  else
    let r1 := l.dropWhile Char.isDigit
    let (commaPart, r2) :=
      match r1 with
      | ',' :: r => (',' :: r.takeWhile Char.isDigit, r.dropWhile Char.isDigit)
      | _ => ([], r1)
    let (dotPart, r3) :=
      match r2 with
      | '.' :: r => ('.' :: r.takeWhile Char.isDigit, r.dropWhile Char.isDigit)
      | _ => ([], r2)
    some (d1 ++ commaPart ++ dotPart, r3)

/-- One-position matcher for a numeral group followed by `\s*` and a unit
from `units` (first alternative wins). -/
def numUnitAt (group : List Char → Option (List Char × List Char))
    (units : List String) (ci : Bool) (l : List Char) : Option (List Char) :=
  match group l with
  | none => none
  | some (num, rest) =>
    if unitPrefix units ci (rest.dropWhile isWsChar) then some num else none

/-- Speed pattern chain of `parseTableRow`:
`/(\d+\.?\d*)\s*(km\/h|mph|kph)/i || /(\d+\.?\d*)\s*km/ || /(\d+\.?\d*)\s*mph/i`. -/
def speedMatch (s : String) : Option Rat :=
  let m1 := scanL (numUnitAt numDotAt ["km/h", "mph", "kph"] true) s.data
  let m2 := scanL (numUnitAt numDotAt ["km"] false) s.data
  let m3 := scanL (numUnitAt numDotAt ["mph"] true) s.data
  ((m1.orElse fun _ => m2).orElse fun _ => m3).map
    (fun num => (jsParseFloatChars num).getD 0)

/-- Digit-only group `(\d+)` at one position. -/
def digitsGroupAt (l : List Char) : Option (List Char × List Char) :=
  let d := l.takeWhile Char.isDigit
  if d.isEmpty then none else some (d, l.dropWhile Char.isDigit)

/-- Heart-rate pattern chain:
`/(\d+)\s*(bpm|♥)/i || /(\d+)\s*bpm/i || /♥\s*(\d+)/i`. -/
def heartRateMatch (s : String) : Option Int :=
  let m1 := scanL (numUnitAt digitsGroupAt ["bpm", "♥"] true) s.data
  let m2 := scanL (numUnitAt digitsGroupAt ["bpm"] true) s.data
  let heartThenNum : List Char → Option (List Char) := fun l =>
    match l with
    | '♥' :: r =>
      let d := (r.dropWhile isWsChar).takeWhile Char.isDigit
      if d.isEmpty then none else some d
    | _ => none
  let m3 := scanL heartThenNum s.data
  ((m1.orElse fun _ => m2).orElse fun _ => m3).map
    (fun num => (natOfDigits num : Int))

/-- Is `c` a regex word character (for `\b`)? -/
def isWordChar (c : Char) : Bool :=
  c.isAlphanum || c = '_'

/-- One-position matcher for `/(\d+)\s*W\b/` (case-sensitive, word boundary). -/
def wattBoundaryAt (l : List Char) : Option (List Char) :=
  match digitsGroupAt l with
  | none => none
  | some (num, rest) =>
    match rest.dropWhile isWsChar with
    | 'W' :: r =>
      match r with
      | [] => some num
      | c :: _ => if isWordChar c then none else some num
    | _ => none

/-- Power pattern chain:
`/(\d+)\s*(w|watts)/i || /(\d+)\s*W\b/ || /(\d+)\s*watts/i`. -/
def powerMatch (s : String) : Option Int :=
  let m1 := scanL (numUnitAt digitsGroupAt ["w", "watts"] true) s.data
  let m2 := scanL wattBoundaryAt s.data
  let m3 := scanL (numUnitAt digitsGroupAt ["watts"] true) s.data
  ((m1.orElse fun _ => m2).orElse fun _ => m3).map
    (fun num => (natOfDigits num : Int))

/-- Erase the first comma of a numeral group (JS `replace(',', '')`). -/
def stripFirstComma : List Char → List Char
  | [] => []
  | ',' :: rest => rest
  | c :: rest => c :: stripFirstComma rest

/-- One-position matcher for `/VAM[:\s]*(\d+,?\d*\.?\d*)/i`. -/
def vamPrefixAt (l : List Char) : Option (List Char) :=
  if literalPrefix "VAM".data true l then
    let rest := (l.drop 3).dropWhile (fun c => c = ':' || isWsChar c)
    (numCommaDotAt rest).map Prod.fst
  else none

/-- Climbing-speed pattern chain:
`/(\d+,?\d*\.?\d*)\s*(m\/min|vam)/i || /(…)\s*VAM/i || /(…)\s*m\/min/i ||
/VAM[:\s]*(…)/i`, value read after erasing the first comma. -/
def climbingSpeedMatch (s : String) : Option Rat :=
  let m1 := scanL (numUnitAt numCommaDotAt ["m/min", "vam"] true) s.data
  let m2 := scanL (numUnitAt numCommaDotAt ["VAM"] true) s.data
  let m3 := scanL (numUnitAt numCommaDotAt ["m/min"] true) s.data
  let m4 := scanL vamPrefixAt s.data
  (((m1.orElse fun _ => m2).orElse fun _ => m3).orElse fun _ => m4).map
    (fun num => (jsParseFloatChars (stripFirstComma num)).getD 0)

/-- First bare numeral `(\d+,?\d*\.?\d*)` anywhere in `s` (cell-6 fallback). -/
def bareNumeral (s : String) : Option Rat :=
  (scanL (fun l => (numCommaDotAt l).map Prod.fst) s.data).map
    (fun num => (jsParseFloatChars (stripFirstComma num)).getD 0)

/-- One table cell, as far as the extractor and the sorter inspect it. -/
structure Cell where
  /-- Raw `textContent` of the cell. -/
  text : String
  /-- Whether any of the avatar selectors (`.avatar`, `img`,
  `[class*="avatar"]`, `[src*="avatar"]`, `[src*="profile"]`) matches. -/
  hasAvatar : Bool
  /-- `textContent` of an `a[href*="/athletes/"]` link inside the cell. -/
  athleteLink : Option String
  /-- `textContent` of the first `a` element inside the cell. -/
  firstLink : Option String
deriving DecidableEq, Repr

/-- One table row: its cells, and, for the sorter's rank fallback, the result
of `row.closest('tbody')` + `indexOf` (none when the row is detached). -/
structure LBRow where
  cells : List Cell
  tbodyIndex : Option Int
deriving DecidableEq, Repr

/-- `LeaderboardRecord` of `models/leaderboard_record.ts` (the DOM `element`
is the originating row value; cloning is the identity on values). -/
structure LBRecord where
  rank : Int
  name : String
  date : String
  speed : Rat
  heartRate : Option Int
  averageClimbingSpeed : Rat
  power : Option Int
  time : String
  timeInSeconds : Nat
  element : LBRow
deriving DecidableEq, Repr

/-- JS falsy-string chaining `a || b`. -/
def jsOrStr (a b : String) : String :=
  if a = "" then b else a

/-- Rank extraction of `parseTableRow` (cells[0]):
empty text or avatar → avatar ⇒ 1, otherwise index+1; else `parseInt || index+1`
(`NaN` and `0` are falsy). -/
def rankFrom (c0 : Cell) (index : Nat) : Int :=
  let rankText := jsTrim c0.text
  if rankText = "" || c0.hasAvatar then
    if c0.hasAvatar then 1 else (index : Int) + 1
  else
    match jsParseInt rankText with
    | some n => if n = 0 then (index : Int) + 1 else n
    | none => (index : Int) + 1

/-- Name extraction: first athlete link among the first three cells, falling
back to the text of the link's cell, or of cells[1] when no link exists. -/
def nameFrom (c0 c1 c2 : Cell) : String :=
  match (if c0.athleteLink.isSome then some c0
         else if c1.athleteLink.isSome then some c1
         else if c2.athleteLink.isSome then some c2 else none) with
  | some c => jsOrStr (jsTrim (c.athleteLink.getD "")) (jsTrim c.text)
  | none => jsTrim c1.text

/-- First cell (scan order) for which the matcher fires. -/
def firstHit {α : Type} (f : String → Option α) : List Cell → Option α
  | [] => none
  | c :: cs =>
    match f (jsTrim c.text) with
    | some v => some v
    | none => firstHit f cs

/-- Time extraction scan: first cell (in the window) whose trimmed text
contains `digits:digits`; yields the full cell text and its seconds value. -/
def timeScanGo : List Cell → String × Nat
  | [] => ("", 0)
  | c :: cs =>
    let t := jsTrim c.text
    if (colonPair t).isSome then (t, parseTimeToSeconds t)
    else timeScanGo cs

/-- Climbing-speed extraction including the cell-6 numeric fallback
(plausibility range 100–5000 exclusive, no `km`/`時`/`:` in the text). -/
def climbingFrom (cells : List Cell) : Rat :=
  let fromPatterns := (firstHit climbingSpeedMatch ((cells.drop 2).take 6)).getD 0
  if fromPatterns = 0 then
    match (cells.drop 6).head? with
    | some c6 =>
      let t := jsTrim c6.text
      match bareNumeral t with
      | some v =>
        if !(containsSub t "km") && !(containsSub t "時") && !(containsSub t ":") &&
            100 < v && v < 5000 then v
        else fromPatterns
      | none => fromPatterns
    | none => fromPatterns
  else fromPatterns

/-- `DOMUtils.parseTableRow`: `none` for rows with fewer than three cells,
otherwise the extracted record (scan windows: speed/HR/power over cells
2..5, climbing over 2..7, time over the last three cells). -/
def parseTableRow (row : LBRow) (index : Nat) : Option LBRecord :=
  match row.cells with
  | c0 :: c1 :: c2 :: rest =>
    let cells := c0 :: c1 :: c2 :: rest
    let timeWindow := cells.drop (max 2 (cells.length - 3))
    let tpair := timeScanGo timeWindow
    some
      { rank := rankFrom c0 index
        name := nameFrom c0 c1 c2
        date := jsOrStr (jsTrim (c2.firstLink.getD "")) (jsTrim c2.text)
        speed := (firstHit speedMatch ((cells.drop 2).take 4)).getD 0
        heartRate := firstHit heartRateMatch ((cells.drop 2).take 4)
        power := firstHit powerMatch ((cells.drop 2).take 4)
        averageClimbingSpeed := climbingFrom cells
        time := tpair.1
        timeInSeconds := tpair.2
        element := row }
  | _ => none

/-- `parsePageData` / the current-page parsing loops: `forEach` with the row
index, skipping rows that fail to parse. -/
def parseRowsIdx (rows : List LBRow) : List LBRecord :=
  rows.enum.filterMap (fun p => parseTableRow p.2 p.1)

/-- One-position matcher for `/page=(\d+)/`. -/
def pageParamAt (l : List Char) : Option Nat :=
  if literalPrefix "page=".data false l then
    let d := (l.drop 5).takeWhile Char.isDigit
    if d.isEmpty then none else some (natOfDigits d)
  else none

/-- First `page=(\d+)` number in a href. -/
def pageParamOf (href : String) : Option Nat :=
  scanL pageParamAt href.data

/-- All maximal digit runs of a string (`match(/\d+/g)`), as numbers. -/
def digitRuns (l : List Char) : List Nat :=
  let p := l.foldr
    (fun c (st : List Char × List Nat) =>
      if c.isDigit then (c :: st.1, st.2)
      else ([], if st.1.isEmpty then st.2 else natOfDigits st.1 :: st.2))
    ([], [])
  if p.1.isEmpty then p.2 else natOfDigits p.1 :: p.2

/-- Page numbers of the hrefs selected by `a[href*="page="]`. -/
def hrefPageNums (hrefs : List String) : List Nat :=
  (hrefs.filter (fun h => containsSub h "page=")).filterMap pageParamOf

/-- A pagination-candidate container: the hrefs of its anchors and its text. -/
structure PagContainer where
  linkHrefs : List String
  text : String
deriving DecidableEq, Repr

/-- The page as `getTotalPages` queries it: the query result for each of the
six pagination selectors, in their fixed order, plus the document-wide
`a[href*="page="]` hrefs used as final fallback. -/
structure PagesEnv where
  containers : List (Option PagContainer)
  docLinkHrefs : List String
deriving DecidableEq, Repr

/-- Processing of one container: href page numbers raised with no upper
bound, then text numbers raised only when `< 1000`. -/
def containerFold (c : PagContainer) (m : Nat) : Nat :=
  let m1 := (hrefPageNums c.linkHrefs).foldl (fun acc n => if acc < n then n else acc) m
  (digitRuns c.text.data).foldl (fun acc n => if acc < n && n < 1000 then n else acc) m1

/-- Selector loop of `getTotalPages`, breaking once the maximum exceeds 1. -/
def containersLoop : List (Option PagContainer) → Nat → Nat
  | [], m => m
  | none :: rest, m => containersLoop rest m
  | some c :: rest, m =>
    let m2 := containerFold c m
    if 1 < m2 then m2 else containersLoop rest m2

/-- `DOMUtils.getTotalPages`. -/
def getTotalPages (env : PagesEnv) : Nat :=
  let m := containersLoop env.containers 1
  if m = 1 then
    (hrefPageNums env.docLinkHrefs).foldl (fun acc n => if acc < n then n else acc) m
  else m

/-- Value of one container starting from the initial maximum 1. -/
def containerMaxOf (c : PagContainer) : Nat :=
  containerFold c 1

/-- A URL, reduced to the parts the code reads: its path and its search
parameters in order (the browser's URL parsing is external machinery). -/
structure Url where
  pathname : String
  params : List (String × String)
deriving DecidableEq, Repr

/-- The allow-list tested inside `DOMUtils.parseUrlParams`. -/
def allowedUrlParams : List String :=
  ["club_id", "filter", "per_page", "partial"]

/-- JS object assignment: an existing key keeps its position with the new
value, a new key is appended. -/
def objSet (m : List (String × String)) (k v : String) : List (String × String) :=
  if m.any (fun kv => kv.1 = k) then
    m.map (fun kv => if kv.1 = k then (k, v) else kv)
  else m ++ [(k, v)]

/-- `{ ...a, ...b }`. -/
def objMerge (a b : List (String × String)) : List (String × String) :=
  b.foldl (fun acc kv => objSet acc kv.1 kv.2) a

/-- `DOMUtils.parseUrlParams`: forward only allow-listed parameters,
dropping `page`. -/
def parseUrlParams (url : Url) : List (String × String) :=
  url.params.foldl
    (fun acc kv =>
      if kv.1 ≠ "page" && allowedUrlParams.contains kv.1 then objSet acc kv.1 kv.2
      else acc)
    []

/-- `URLSearchParams.get`: first value for the key. -/
def lookupFirst (ps : List (String × String)) (k : String) : Option String :=
  (ps.find? (fun kv => kv.1 = k)).map Prod.snd

/-- JS truthiness of a nullable string. -/
def jsTruthyOpt (o : Option String) : Bool :=
  match o with
  | some s => s ≠ ""
  | none => false

structure FilterState where
  filterType : String
  filterValue : String
deriving DecidableEq, Repr

/-- The page as the filter resolver queries it. -/
structure PageDomEnv where
  /-- hrefs of `.pagination a[href*="leaderboard"]`, in document order. -/
  paginationLeaderboardLinks : List Url
  /-- `window.location`. -/
  location : Url
  /-- Text of `[data-role="active-filters"]` when that element exists. -/
  activeFiltersText : Option String
  /-- First active-filter fallback element: its `data-filter` attribute,
  text, and `href` attribute. -/
  fallbackActive : Option (Option String × String × Option String)
  /-- First element of the active-filter selector list carrying a `href`. -/
  activeFilterHref : Option Url
  /-- `.filter-link[href*="leaderboard"]` anchors: (href, text). -/
  filterLinks : List (Url × String)
  /-- `name`/`value` of the hidden and filter-named form inputs, in order. -/
  hiddenInputs : List (String × String)
  /-- Attributes of the leaderboard container found via `closest`, if any. -/
  containerDataAttrs : Option (List (String × String))
  /-- Content of `meta[name="csrf-token"]`. -/
  csrfToken : Option String
deriving Repr

/-- `DOMUtils.detectCurrentFilter`. -/
def detectCurrentFilter (env : PageDomEnv) : Option FilterState :=
  let fallback :=
    match env.fallbackActive with
    | some (df, text, href) =>
      let dfv := match df with | some s => s | none => ""
      some { filterType := jsOrStr dfv "text"
             filterValue :=
               jsOrStr dfv (jsOrStr (jsTrim text) (match href with | some h => h | none => "")) }
    | none => none
  match env.activeFiltersText with
  | some t => if jsTrim t ≠ "" then some ⟨"active-filters", jsTrim t⟩ else fallback
  | none => fallback

/-- `DOMUtils.extractFilterParamsFromPage`. -/
def extractFilterParamsFromPage (env : PageDomEnv) : Option (List (String × String)) :=
  match env.paginationLeaderboardLinks with
  | firstLink :: _ =>
    let paginationParams := parseUrlParams firstLink
    let currentParams := parseUrlParams env.location
    let pf := lookupFirst paginationParams "filter"
    let cf := lookupFirst currentParams "filter"
    if jsTruthyOpt pf && jsTruthyOpt cf && pf ≠ cf then some paginationParams
    else some (objMerge currentParams paginationParams)
  | [] =>
    let currentParams := parseUrlParams env.location
    if containsSub env.location.pathname "/leaderboard" && !currentParams.isEmpty then
      some currentParams
    else
      match env.activeFilterHref with
      | some u => some (parseUrlParams u)
      | none =>
        match env.filterLinks.find? (fun lk =>
          match detectCurrentFilter env with
          | some f => jsTrim lk.2 = f.filterValue
          | none => false) with
        | some lk => some (parseUrlParams lk.1)
        | none => none

/-- One-position matcher for `/\/segments\/(\d+)/`. -/
def segmentsIdAt (l : List Char) : Option (List Char) :=
  if literalPrefix "/segments/".data false l then
    let d := (l.drop 10).takeWhile Char.isDigit
    if d.isEmpty then none else some d
  else none

/-- Segment id extracted from the location path. -/
def segmentIdOf (pathname : String) : Option String :=
  (scanL segmentsIdAt pathname.data).map (fun d => ⟨d⟩)

/-- `DOMUtils.getFilterRequestData`: the detected filter and the accumulated
form data (allow-listed link params, then hidden inputs, then container
data attributes, then the URL segment id, then the text→filter mapping). -/
def getFilterRequestData (env : PageDomEnv) :
    Option FilterState × List (String × String) :=
  let currentFilter := detectCurrentFilter env
  let filterParams := extractFilterParamsFromPage env
  let fd0 : List (String × String) :=
    match filterParams with
    | some ps => objMerge [] ps
    | none => []
  let fd1 := env.hiddenInputs.foldl
    (fun acc kv => if kv.1 ≠ "" && kv.2 ≠ "" then objSet acc kv.1 kv.2 else acc) fd0
  let fd2 :=
    match env.containerDataAttrs with
    | some attrs => attrs.foldl
        (fun acc kv =>
          if literalPrefix "data-".data false kv.1.data then
            objSet acc ⟨kv.1.data.drop 5⟩ kv.2
          else acc)
        fd1
    | none => fd1
  let fd3 :=
    match segmentIdOf env.location.pathname with
    | some sid => objSet fd2 "segment_id" sid
    | none => fd2
  let fd4 :=
    match currentFilter, filterParams with
    | some f, none =>
      if f.filterValue ≠ "" then
        let v := f.filterValue.toLower
        if containsSub v "my" || containsSub v "結果" then objSet fd3 "filter" "my_results"
        else if containsSub v "フォロー" || containsSub v "follow" then objSet fd3 "filter" "following"
        else if containsSub v "今年" || containsSub v "current" then objSet fd3 "filter" "current_year"
        else if containsSub v "全期間" || containsSub v "overall" then objSet fd3 "filter" "overall"
        else fd3
      else fd3
    | _, _ => fd3
  (currentFilter, fd4)

/-- Rewriting of the request path onto the leaderboard endpoint (shared by
the GET and POST builders; the constant origin prefix is omitted). -/
def leaderboardBaseUrl (loc : Url) : String :=
  if containsSub loc.pathname "/leaderboard" then loc.pathname
  else
    match loc.pathname.splitOn "/" with
    | _ :: "segments" :: sid :: _ => "/segments/" ++ sid ++ "/leaderboard"
    | _ => loc.pathname

structure PageRequest where
  url : String
  method : String
  body : List (String × String)
  headers : List (String × String)
deriving DecidableEq, Repr

/-- `DOMUtils.buildFilteredPageRequest`: POST form body with the page
number, every truthy entry of the accumulated form data, and the CSRF
token when one is discoverable. -/
def buildFilteredPageRequest (env : PageDomEnv) (page : Nat) : PageRequest :=
  let filterInfo := getFilterRequestData env
  let body0 : List (String × String) := [("page", toString page)]
  let body1 := filterInfo.2.foldl
    (fun acc kv => if kv.2 ≠ "" then acc ++ [kv] else acc) body0
  let headers0 : List (String × String) :=
    [("X-Requested-With", "XMLHttpRequest"),
     ("Accept", "text/html,application/xhtml+xml,application/xml;q=0.9,*/*;q=0.8"),
     ("Cache-Control", "no-cache")]
  if jsTruthyOpt env.csrfToken then
    { url := leaderboardBaseUrl env.location, method := "POST"
      body := body1 ++ [("authenticity_token", env.csrfToken.getD "")]
      headers := headers0 ++ [("X-CSRF-Token", env.csrfToken.getD "")] }
  else
    { url := leaderboardBaseUrl env.location, method := "POST"
      body := body1, headers := headers0 }

/-- The allow-list applied to form-data keys inside `loadPageDataGET`. -/
def allowedParamsGET : List String :=
  ["club_id", "filter", "per_page", "partial", "date_range", "age_group", "weight_class"]

/-- The `importantParams` copied from the current URL in `loadPageDataGET`. -/
def importantParamsGET : List String :=
  ["club_id", "per_page", "filter", "partial", "date_range", "age_group", "weight_class"]

/-- Loop body of `loadPageDataGET` over the discovered form data: set the
parameter only when its value is truthy and its name is allow-listed. -/
def getParamsFilterStep (acc : List (String × String)) (kv : String × String) :
    List (String × String) :=
  if kv.2 ≠ "" && kv.1 ≠ "page" && allowedParamsGET.contains kv.1 then
    objSet acc kv.1 kv.2
  else acc

/-- Loop body of `loadPageDataGET` over `importantParams`: copy the
parameter from the current URL when present, truthy, and not already set. -/
def getParamsImportantStep (env : PageDomEnv) (acc : List (String × String))
    (p : String) : List (String × String) :=
  match lookupFirst env.location.params p with
  | some v => if v ≠ "" && !(acc.any (fun kv => kv.1 = p)) then objSet acc p v else acc
  | none => acc

/-- Query parameters of the GET request built by `PageLoader.loadPageDataGET`:
cleared search, `page`, `partial=true`, allow-listed form-data entries, then
allow-listed parameters of the current URL not already present. -/
def loadPageDataGETParams (env : PageDomEnv) (page : Nat) : List (String × String) :=
  let filterInfo := getFilterRequestData env
  let ps0 := objSet (objSet [] "page" (toString page)) "partial" "true"
  let ps1 := filterInfo.2.foldl getParamsFilterStep ps0
  importantParamsGET.foldl (getParamsImportantStep env) ps1

/-- Mutable state of a `PageLoader` instance. -/
structure LoaderState where
  isLoadingAllPages : Bool
  loadingAborted : Bool
  allPagesData : List LBRecord
deriving DecidableEq, Repr

/-- One aggregation run's environment: the page count reported by
`getTotalPages`, the current table body's rows, the outcome of the GET and
POST fetches per page (`.error` = non-2xx status or transport failure,
`.ok rows` = the rows of the response document's leaderboard tbody), and
the loop iteration at whose start a pressed cancel button is observed. -/
structure FetchEnv where
  totalPages : Nat
  currentRows : List LBRow
  getOutcome : Nat → Except Unit (List LBRow)
  postOutcome : Nat → Except Unit (List LBRow)
  abortAt : Option Nat

inductive RunOutcome
  | reentrant
  | singlePage
  | cancelled
  | completed
deriving DecidableEq, Repr

/-- Observable outcome of one `loadAllPages` call.  `tableWritten` records
whether `appendAllDataToTable` ran, `finalTbody` the table body's row set on
return, `fetched` the pages handed to `loadPageData`.  `alerted` mirrors
the `catch` branch of `loadAllPages` (part_003:589-592); it is never set,
because every path of `loadPageData`/`loadPageDataGET` resolves (fetch and
parse errors are converted to empty lists, never rejections). -/
structure RunResult where
  result : List LBRecord
  outcome : RunOutcome
  tableWritten : Bool
  alerted : Bool
  fetched : List Nat
  finalTbody : List LBRow
  finalState : LoaderState
deriving DecidableEq, Repr

/-- `PageLoader.loadPageDataGET`: a failed fetch resolves with `[]`. -/
def loadPageDataGETResult (env : FetchEnv) (page : Nat) : List LBRecord :=
  match env.getOutcome page with
  | .ok rows => parseRowsIdx rows
  | .error _ => []

/-- `PageLoader.loadPageData`: GET first; on zero records fall back to the
POST request; a failed POST also resolves with `[]`. -/
def loadPageData (env : FetchEnv) (page : Nat) : List LBRecord :=
  let getResult := loadPageDataGETResult env page
  if getResult.length > 0 then getResult
  else
    match env.postOutcome page with
    | .ok rows => parseRowsIdx rows
    | .error _ => []

/-- Is the abort flag observed set at the iteration for `page`? -/
def abortedObs (env : FetchEnv) (page : Nat) : Bool :=
  match env.abortAt with
  | some a => a ≤ page
  | none => false

/-- The page loop of `loadAllPages` (pages 2..N, strictly in order): abort
check before each fetch; on completion the merge into the table body
(cloned record elements) happens, the `finally` block resets the flags. -/
def loadLoop (env : FetchEnv) : List Nat → List LBRecord → List Nat → RunResult
  | [], acc, fetched =>
    { result := acc, outcome := .completed, tableWritten := true, alerted := false
      fetched := fetched, finalTbody := acc.map LBRecord.element
      finalState := ⟨false, false, acc⟩ }
  | p :: rest, acc, fetched =>
    if abortedObs env p then
      { result := acc, outcome := .cancelled, tableWritten := false, alerted := false
        fetched := fetched, finalTbody := env.currentRows
        finalState := ⟨false, false, acc⟩ }
    else
      let pageData := loadPageData env p
      let acc' := if pageData.length > 0 then acc ++ pageData else acc
      loadLoop env rest acc' (fetched ++ [p])

/-- `PageLoader.loadAllPages`.  A call while a run is in flight returns the
current accumulation untouched; one page short-circuits to parsing the
current rows (this early return skips the `finally` flag reset, so
`isLoadingAllPages` stays set); otherwise the current rows are parsed and
pages 2..N are processed by the loop. -/
def loadAllPages (env : FetchEnv) (st : LoaderState) : RunResult :=
  if st.isLoadingAllPages then
    { result := st.allPagesData, outcome := .reentrant, tableWritten := false, alerted := false
      fetched := [], finalTbody := env.currentRows, finalState := st }
  else if env.totalPages ≤ 1 then
    let d := parseRowsIdx env.currentRows
    { result := d, outcome := .singlePage, tableWritten := false, alerted := false
      fetched := [], finalTbody := env.currentRows
      finalState := ⟨true, false, d⟩ }
  else
    loadLoop env (List.range' 2 (env.totalPages - 1)) (parseRowsIdx env.currentRows) []

/-- Concatenation of the per-page results for a list of pages. -/
def expectedPages (env : FetchEnv) : List Nat → List LBRecord
  | [] => []
  | p :: rest => loadPageData env p ++ expectedPages env rest

/-- The value a cell coerces to for sorting: a string, a number, or a date
(represented by its day number, the monotone image of the JS timestamp). -/
inductive CellValue
  | str (s : String)
  | num (q : Rat)
  | date (day : Int)
deriving DecidableEq, Repr

/-- Day count from civil date (proleptic Gregorian), the standard
`days_from_civil` algorithm; all divisions here see non-negative operands
for the years that can arise. -/
def daysFromCivil (y : Int) (m : Nat) (d : Int) : Int :=
  let y2 : Int := if m ≤ 2 then y - 1 else y
  let era : Int := (if 0 ≤ y2 then y2 else y2 - 399) / 400
  let yoe : Int := y2 - era * 400
  let mp : Int := if 2 < m then (m : Int) - 3 else (m : Int) + 9
  let doy : Int := (153 * mp + 2) / 5 + d - 1
  let doe : Int := yoe * 365 + yoe / 4 - yoe / 100 + doy
  era * 146097 + doe - 719468

/-- Day number of `new Date(y, m-1, d)` (month/day normalization as in the
spec of `MakeDay`; two-digit years map to 1900+y; the local-time offset is
shared by all values and cannot reorder distinct days). -/
def jsDateDay (y m d : Nat) : Int :=
  let y0 : Int := if y ≤ 99 then (y : Int) + 1900 else (y : Int)
  let mIdx : Int := (m : Int) - 1
  let ym : Int := y0 + Int.fdiv mIdx 12
  let mn : Nat := (Int.emod mIdx 12).toNat
  daysFromCivil ym (mn + 1) 1 + ((d : Int) - 1)

/-- One-position matcher for `/(\d{4})年(\d{1,2})月(\d{1,2})日/`. -/
def jaDateAt (l : List Char) : Option (Nat × Nat × Nat) :=
  let y := l.take 4
  if y.length = 4 && y.all Char.isDigit then
    match l.drop 4 with
    | '年' :: r1 =>
      let mrun := r1.takeWhile Char.isDigit
      if mrun.length = 1 || mrun.length = 2 then
        match r1.drop mrun.length with
        | '月' :: r2 =>
          let drun := r2.takeWhile Char.isDigit
          if drun.length = 1 || drun.length = 2 then
            match r2.drop drun.length with
            | '日' :: _ => some (natOfDigits y, natOfDigits mrun, natOfDigits drun)
            | _ => none
          else none
        | _ => none
      else none
    | _ => none
  else none

/-- First Japanese-format date in `s`. -/
def jaDateSearch (s : String) : Option (Nat × Nat × Nat) :=
  scanL jaDateAt s.data

/-- Anchored `/^[\d,]+\.?\d*/` with every comma stripped before
`parseFloat`; `none` when there is no match or the result is `NaN`. -/
def numericHead (s : String) : Option Rat :=
  let l := s.data
  let run := l.takeWhile (fun c => c.isDigit || c = ',')
  if run.isEmpty then none
  else
    let rest := l.drop run.length
    let frac :=
      match rest with
      | '.' :: r => '.' :: r.takeWhile Char.isDigit
      | _ => []
    jsParseFloatChars ((run ++ frac).filter (fun c => c ≠ ','))

/-- Anchored `/^(\d{1,2}):(\d{2})(?::(\d{2}))?$/`, read as
hours:minutes(:seconds) exactly as the sorter does. -/
def timeExact (s : String) : Option Nat :=
  let l := s.data
  let r1 := l.takeWhile Char.isDigit
  if r1.length = 1 || r1.length = 2 then
    match l.drop r1.length with
    | ':' :: r2 =>
      let mins := r2.takeWhile Char.isDigit
      if mins.length = 2 then
        match r2.drop 2 with
        | [] => some (natOfDigits r1 * 3600 + natOfDigits mins * 60)
        | ':' :: r3 =>
          let sec := r3.takeWhile Char.isDigit
          if sec.length = 2 && r3.length = 2 then
            some (natOfDigits r1 * 3600 + natOfDigits mins * 60 + natOfDigits sec)
          else none
        | _ => none
      else none
    | _ => none
  else none

/-- The general value coercion of `TableSorter.getCellValue` (non-rank
columns, and the rank column's ultimate fallthrough). -/
def generalCoerce (text : String) : CellValue :=
  if text = "" || text = "-" then .str ""
  else
    match numericHead text with
    | some q => .num q
    | none =>
      match jaDateSearch text with
      | some (y, m, d) => .date (jsDateDay y m d)
      | none =>
        match timeExact text with
        | some secs => .num (secs : Rat)
        | none => .str text.toLower

/-- `TableSorter.getCellValue`: a missing cell yields the blank value; the
rank column coerces avatars to 1, parseable text to its number, and an
attached row to its position + 1, before falling through to the general
coercion. -/
def getCellValue (row : LBRow) (columnIndex : Int) : CellValue :=
  match (if 0 ≤ columnIndex then (row.cells.drop columnIndex.toNat).head? else none) with
  | none => .str ""
  | some cell =>
    let text := jsTrim cell.text
    if columnIndex = 0 then
      if cell.hasAvatar then .num 1
      else
        match (if text ≠ "" && text ≠ "-" then jsParseInt text else none) with
        | some n => .num (n : Rat)
        | none =>
          match row.tbodyIndex with
          | some i => .num ((i + 1 : Int) : Rat)
          | none => generalCoerce text
    else generalCoerce text

/-- Decimal rendering of a number (`String(value)`); exact for the decimal
values this code produces. -/
def ratToDisplay (q : Rat) : String :=
  if q.den = 1 then toString q.num
  else
    match (List.range 30).find? (fun k => 10 ^ (k + 1) % q.den = 0) with
    | some k =>
      let n := q.num * ((10 ^ (k + 1) / q.den : Nat) : Int)
      let sign := if n < 0 then "-" else ""
      let a := n.natAbs
      let ip := a / 10 ^ (k + 1)
      let fp := a % 10 ^ (k + 1)
      let fpStr := toString fp
      let pad := String.mk (List.replicate ((k + 1) - fpStr.length) '0')
      sign ++ toString ip ++ "." ++ pad ++ fpStr
    | none => toString q.num ++ "/" ++ toString q.den

/-- `String(value)` for a cell value.  A JS `Date`'s string rendering is
locale- and timezone-dependent; it is modelled by an injective placeholder
(none of the proved properties depend on it). -/
def jsToString : CellValue → String
  | .str s => s
  | .num q => ratToDisplay q
  | .date day => "[Date " ++ toString day ++ "]"

/-- Code-point lexicographic comparison (model of `localeCompare`). -/
def strCmp : List Char → List Char → Int
  | [], [] => 0
  | [], _ :: _ => -1
  | _ :: _, [] => 1
  | x :: xs, y :: ys => if x < y then -1 else if y < x then 1 else strCmp xs ys

/-- The typed comparison of the sort callback: same types compare natively,
differing types compare as strings. -/
def sameTypeCompare : CellValue → CellValue → Int
  | .num a, .num b => if a < b then -1 else if b < a then 1 else 0
  | .str a, .str b => strCmp a.data b.data
  | .date a, .date b => if a < b then -1 else if b < a then 1 else 0
  | a, b => strCmp (jsToString a).data (jsToString b).data

inductive SortDirection
  | asc
  | desc
deriving DecidableEq, Repr

/-- `SortConfig` (`column = -1` means unsorted). -/
structure SortConfig where
  column : Int
  direction : SortDirection
deriving DecidableEq, Repr

/-- The comparator passed to `Array.sort` by `TableSorter.sortData`: blanks
compare last regardless of direction (these branches return before the
direction flip), every other pair by the typed comparison, negated for
descending order. -/
def sortCompare (cfg : SortConfig) (a b : LBRecord) : Int :=
  let aValue := getCellValue a.element cfg.column
  let bValue := getCellValue b.element cfg.column
  if aValue = .str "" && bValue = .str "" then 0
  else if aValue = .str "" then 1
  else if bValue = .str "" then -1
  else
    let result := sameTypeCompare aValue bValue
    match cfg.direction with
    | .desc => -result
    | .asc => result

/-- "a sorts no later than b" for the comparator. -/
def sortLe (cfg : SortConfig) (a b : LBRecord) : Bool :=
  sortCompare cfg a b ≤ 0

/-- Insertion step of a stable comparison sort. -/
def insertOrd {α : Type} (le : α → α → Bool) (x : α) : List α → List α
  | [] => [x]
  | y :: ys => if le x y then x :: y :: ys else y :: insertOrd le x ys

/-- Stable comparison sort (the model of `Array.sort`, which ECMAScript
requires to be stable). -/
def sortWith {α : Type} (le : α → α → Bool) : List α → List α
  | [] => []
  | x :: xs => insertOrd le x (sortWith le xs)

/-- `TableSorter.sortData`: the input sequence itself when unsorted,
otherwise a sorted copy. -/
def sortData (cfg : SortConfig) (data : List LBRecord) : List LBRecord :=
  if cfg.column = -1 then data
  else sortWith (sortLe cfg) data

/-- Does the record's cell in `col` coerce to the blank value? -/
def isBlankIn (col : Int) (r : LBRecord) : Bool :=
  getCellValue r.element col = CellValue.str ""

/-- Modelled from the spec: the "MM:SS (or H:MM:SS) decomposition" of a time
string into seconds named by the claims — an exact `M:S`/`H:M:S` shape read
as minutes:seconds resp. hours:minutes:seconds, 0 otherwise. -/
def specTimeDecomposition (s : String) : Nat :=
  let l := s.data
  let d1 := l.takeWhile Char.isDigit
  if d1.isEmpty then 0
  else
    match l.drop d1.length with
    | ':' :: r2 =>
      let d2 := r2.takeWhile Char.isDigit
      if d2.isEmpty then 0
      else
        match r2.drop d2.length with
        | [] => natOfDigits d1 * 60 + natOfDigits d2
        | ':' :: r3 =>
          let d3 := r3.takeWhile Char.isDigit
          if !d3.isEmpty && r3.length = d3.length then
            natOfDigits d1 * 3600 + natOfDigits d2 * 60 + natOfDigits d3
          else 0
        | _ => 0
    | _ => 0

/-! ### Concrete page states used by the counterexamples and witnesses -/

/-- A page whose only extra request data is one hidden form input, on a
segment leaderboard path. -/
def c1CexEnv : PageDomEnv :=
  { paginationLeaderboardLinks := []
    location := ⟨"/segments/123/leaderboard", []⟩
    activeFiltersText := none
    fallbackActive := none
    activeFilterHref := none
    filterLinks := []
    hiddenInputs := [("athlete[dateofbirth(3i)]", "1990")]
    containerDataAttrs := none
    csrfToken := none }

def cellAthlete : Cell := ⟨"Alice", false, some "Alice", none⟩

def cellPlain : Cell := ⟨"x", false, none, none⟩

/-- A current-page row (rank 1, athlete link, a time cell). -/
def rowA : LBRow :=
  ⟨[⟨"1", false, none, none⟩, cellAthlete, ⟨"4:56", false, none, none⟩], none⟩

def st0 : LoaderState := ⟨false, false, []⟩

/-- Two pages; both the GET and the POST fetch of page 2 fail. -/
def c2CexEnv : FetchEnv :=
  { totalPages := 2, currentRows := [rowA]
    getOutcome := fun _ => .error (), postOutcome := fun _ => .error ()
    abortAt := none }

/-- A row of the fetched page `p`. -/
def pageRow (p : Nat) : LBRow :=
  ⟨[⟨toString p, false, none, none⟩, ⟨"B", false, some "B", none⟩,
    ⟨"5:00", false, none, none⟩], none⟩

/-- Five pages, successful GETs, cancel observed before the page-4 fetch. -/
def c3CexEnv : FetchEnv :=
  { totalPages := 5, currentRows := [rowA]
    getOutcome := fun p => .ok [pageRow p], postOutcome := fun _ => .error ()
    abortAt := some 4 }

/-- An environment for the re-entrancy witness. -/
def c4Env : FetchEnv :=
  { totalPages := 3, currentRows := [rowA]
    getOutcome := fun p => .ok [pageRow p], postOutcome := fun _ => .error ()
    abortAt := none }

/-- A row whose time cell carries an H:MM:SS time. -/
def c5CexRow : LBRow :=
  ⟨[⟨"1", false, none, none⟩, cellAthlete, ⟨"1:23:45", false, none, none⟩], none⟩

/-- A row whose time cell carries a plain MM:SS time. -/
def c5WRow : LBRow :=
  ⟨[⟨"1", false, none, none⟩, cellAthlete, ⟨"4:56", false, none, none⟩], none⟩

def defaultRec : LBRecord :=
  ⟨0, "", "", 0, none, 0, none, "", 0, ⟨[], none⟩⟩

def c5WRec : LBRecord :=
  (parseTableRow c5WRow 0).getD defaultRec

/-- Rank cell with both a literal "5" and an avatar marker. -/
def c6RowAvatar : LBRow :=
  ⟨[⟨"5", true, none, none⟩, cellAthlete, cellPlain], none⟩

/-- Rank cell with the literal "-3" and no avatar. -/
def c6RowNeg : LBRow :=
  ⟨[⟨"-3", false, none, none⟩, cellAthlete, cellPlain], none⟩

/-- The metric cells of the C7 example, in the scanned window. -/
def c7CexRow : LBRow :=
  ⟨[⟨"1", false, none, none⟩, cellAthlete, ⟨"1,234.5 km/h", false, none, none⟩,
    ⟨"185 bpm", false, none, none⟩, ⟨"250W", false, none, none⟩], none⟩

/-- A pagination container whose links carry `page=2` and `page=5000`. -/
def c8CexEnv : PagesEnv :=
  ⟨[some ⟨["/x/leaderboard?page=2", "/x/leaderboard?page=5000"], ""⟩,
    none, none, none, none, none], []⟩

/-- The spec's positive example: links `page=1..7` in scrambled order and
text distractors ≥ 1000. -/
def c8GoodContainer : PagContainer :=
  ⟨["?page=4", "?page=1", "?page=7", "?page=2"], "1 2 3 4 5 6 7 1500 2000"⟩

/-- A record around a given row, for sorter inputs. -/
def mkSortRec (row : LBRow) : LBRecord :=
  { rank := 1, name := "", date := "", speed := 0, heartRate := none
    averageClimbingSpeed := 0, power := none, time := "", timeInSeconds := 0
    element := row }

/-- A record whose rank cell shows the placeholder `-`, attached to the
table body at position 0. -/
def recDash : LBRecord :=
  mkSortRec ⟨[⟨"-", false, none, none⟩], some 0⟩

/-- A record whose rank cell shows the literal 5. -/
def recFive : LBRecord :=
  mkSortRec ⟨[⟨"5", false, none, none⟩], none⟩

/-! ### Helper lemmas -/

theorem foldl_preserve_mem {α β : Type} (Inv : β → Prop) (step : β → α → β) :
    ∀ (l : List α) (acc : β), (∀ acc x, x ∈ l → Inv acc → Inv (step acc x)) →
      Inv acc → Inv (l.foldl step acc) := by
  intro l
  induction l with
  | nil => intro acc _ h; exact h
  | cons x xs ih =>
    intro acc hstep h
    exact ih (step acc x)
      (fun a y hy ha => hstep a y (List.mem_cons_of_mem x hy) ha)
      (hstep acc x (List.mem_cons_self x xs) h)

theorem objSet_keys {P : String → Prop} {m : List (String × String)} {k v : String}
    (hm : ∀ kv ∈ m, P kv.1) (hk : P k) : ∀ kv ∈ objSet m k v, P kv.1 := by
  intro kv hkv
  unfold objSet at hkv
  by_cases hc : m.any (fun kv => kv.1 = k)
  · rw [if_pos hc] at hkv
    rcases List.mem_map.mp hkv with ⟨kv', hkv', heq⟩
    by_cases he : kv'.1 = k
    · rw [if_pos he] at heq
      subst heq
      exact hk
    · rw [if_neg he] at heq
      subst heq
      exact hm kv' hkv'
  · rw [if_neg hc] at hkv
    rcases List.mem_append.mp hkv with h | h
    · exact hm kv h
    · rcases List.mem_singleton.mp h with rfl
      exact hk

theorem foldMax_ge (l : List Nat) :
    ∀ m : Nat, m ≤ l.foldl (fun acc n => if acc < n then n else acc) m := by
  induction l with
  | nil => intro m; exact Nat.le_refl m
  | cons n rest ih =>
    intro m
    refine Nat.le_trans ?_ (ih (if m < n then n else m))
    by_cases h : m < n
    · rw [if_pos h]; exact Nat.le_of_lt h
    · rw [if_neg h]

theorem foldMaxLt_ge (l : List Nat) :
    ∀ m : Nat, m ≤ l.foldl (fun acc n => if acc < n && n < 1000 then n else acc) m := by
  induction l with
  | nil => intro m; exact Nat.le_refl m
  | cons n rest ih =>
    intro m
    refine Nat.le_trans ?_ (ih _)
    show m ≤ if (m < n && n < 1000) = true then n else m
    by_cases h : (m < n && n < 1000) = true
    · rw [if_pos h]
      exact Nat.le_of_lt (of_decide_eq_true (Bool.and_elim_left h))
    · rw [if_neg h]

theorem perm_insertOrd {α : Type} (le : α → α → Bool) (x : α) :
    ∀ l : List α, List.Perm (insertOrd le x l) (x :: l) := by
  intro l
  induction l with
  | nil => exact List.Perm.refl _
  | cons y ys ih =>
    unfold insertOrd
    by_cases h : le x y = true
    · rw [if_pos h]
    · rw [if_neg h]
      exact (ih.cons y).trans (List.Perm.swap x y ys)

theorem perm_sortWith {α : Type} (le : α → α → Bool) :
    ∀ l : List α, List.Perm (sortWith le l) l := by
  intro l
  induction l with
  | nil => exact List.Perm.refl _
  | cons x xs ih =>
    unfold sortWith
    exact (perm_insertOrd le x (sortWith le xs)).trans (ih.cons x)

theorem mem_insertOrd {α : Type} (le : α → α → Bool) (x z : α) (l : List α) :
    z ∈ insertOrd le x l → z = x ∨ z ∈ l := by
  intro hz
  rcases (List.Perm.mem_iff (perm_insertOrd le x l)).mp hz with h
  exact List.mem_cons.mp h

theorem pairwise_insertOrd {α : Type} (P : α → Bool) (le : α → α → Bool)
    (h1 : ∀ a b, P a = false → P b = true → le a b = true)
    (h2 : ∀ a b, P a = true → P b = false → le a b = false)
    (x : α) :
    ∀ l : List α, List.Pairwise (fun a b => P a = true → P b = true) l →
      List.Pairwise (fun a b => P a = true → P b = true) (insertOrd le x l) := by
  intro l
  induction l with
  | nil =>
    intro _
    exact List.pairwise_singleton _ x
  | cons y ys ih =>
    intro hp
    rcases List.pairwise_cons.mp hp with ⟨hy, hys⟩
    unfold insertOrd
    by_cases hle : le x y = true
    · rw [if_pos hle]
      refine List.pairwise_cons.mpr ⟨?_, hp⟩
      intro z hz hx
      -- x is blank here, so y must be blank (else le x y would be false)
      have hyb : P y = true := by
        by_contra hyb
        have := h2 x y hx (Bool.eq_false_iff.mpr hyb)
        rw [this] at hle
        exact Bool.false_ne_true hle
      rcases List.mem_cons.mp hz with rfl | hz'
      · exact hyb
      · exact hy z hz' hyb
    · rw [if_neg hle]
      refine List.pairwise_cons.mpr ⟨?_, ih hys⟩
      intro z hz hy'
      -- y is blank here, so x must be blank (else le x y would be true)
      rcases mem_insertOrd le x z ys hz with rfl | hz'
      · by_contra hx
        have := h1 z y (Bool.eq_false_iff.mpr hx) hy'
        exact hle this
      · exact hy z hz' hy'

theorem pairwise_sortWith {α : Type} (P : α → Bool) (le : α → α → Bool)
    (h1 : ∀ a b, P a = false → P b = true → le a b = true)
    (h2 : ∀ a b, P a = true → P b = false → le a b = false) :
    ∀ l : List α, List.Pairwise (fun a b => P a = true → P b = true) (sortWith le l) := by
  intro l
  induction l with
  | nil => exact List.Pairwise.nil
  | cons x xs ih =>
    unfold sortWith
    exact pairwise_insertOrd P le h1 h2 x (sortWith le xs) ih

theorem ifLenAppend (acc l : List LBRecord) :
    (if l.length > 0 then acc ++ l else acc) = acc ++ l := by
  cases l with
  | nil => simp
  | cons x xs => simp

theorem loadLoop_complete (env : FetchEnv) (h3 : env.abortAt = none) :
    ∀ (ps : List Nat) (acc : List LBRecord) (fetched : List Nat),
      loadLoop env ps acc fetched =
        { result := acc ++ expectedPages env ps, outcome := .completed
          tableWritten := true, alerted := false, fetched := fetched ++ ps
          finalTbody := (acc ++ expectedPages env ps).map LBRecord.element
          finalState := ⟨false, false, acc ++ expectedPages env ps⟩ } := by
  intro ps
  induction ps with
  | nil =>
    intro acc fetched
    simp [loadLoop, expectedPages]
  | cons p rest ih =>
    intro acc fetched
    have hab : abortedObs env p = false := by
      unfold abortedObs
      rw [h3]
    unfold loadLoop
    rw [hab]
    simp only [Bool.false_eq_true, if_false, ifLenAppend]
    rw [ih (acc ++ loadPageData env p) (fetched ++ [p])]
    simp [expectedPages]

theorem loadLoop_cancel (env : FetchEnv) :
    ∀ (ps : List Nat) (qs : List Nat) (q : Nat) (acc : List LBRecord) (fetched : List Nat),
      (∀ p ∈ ps, abortedObs env p = false) → abortedObs env q = true →
      loadLoop env (ps ++ q :: qs) acc fetched =
        { result := acc ++ expectedPages env ps, outcome := .cancelled
          tableWritten := false, alerted := false, fetched := fetched ++ ps
          finalTbody := env.currentRows
          finalState := ⟨false, false, acc ++ expectedPages env ps⟩ } := by
  intro ps
  induction ps with
  | nil =>
    intro qs q acc fetched _ hq
    rw [List.nil_append]
    simp only [loadLoop]
    rw [hq]
    simp [expectedPages]
  | cons p rest ih =>
    intro qs q acc fetched hps hq
    have hab : abortedObs env p = false := hps p (List.mem_cons_self p rest)
    rw [List.cons_append]
    simp only [loadLoop]
    rw [hab]
    simp only [Bool.false_eq_true, if_false, ifLenAppend]
    rw [ih qs q (acc ++ loadPageData env p) (fetched ++ [p])
      (fun x hx => hps x (List.mem_cons_of_mem p hx)) hq]
    simp [expectedPages]

theorem takeWhile_of_all {p : Char → Bool} :
    ∀ l : List Char, l.all p = true → l.takeWhile p = l := by
  intro l
  induction l with
  | nil => intro _; rfl
  | cons c cs ih =>
    intro h
    have h' := List.all_eq_true.mp h
    have hc := h' c (List.mem_cons_self c cs)
    have hcs : cs.all p = true :=
      List.all_eq_true.mpr (fun x hx => h' x (List.mem_cons_of_mem c hx))
    simp [List.takeWhile_cons, hc, ih hcs]

theorem timeScanGo_inv :
    ∀ cs : List Cell, (timeScanGo cs).2 = parseTimeToSeconds (timeScanGo cs).1 := by
  intro cs
  induction cs with
  | nil =>
    show (0 : Nat) = parseTimeToSeconds ""
    decide
  | cons c rest ih =>
    unfold timeScanGo
    by_cases h : (colonPair (jsTrim c.text)).isSome
    · rw [if_pos h]
    · rw [if_neg h]
      exact ih

theorem jsParseInt_all_digits (s : String) (hd : s.data.all Char.isDigit = true)
    (hne : s.data ≠ []) : jsParseInt s = some ((natOfDigits s.data : Int)) := by
  unfold jsParseInt
  split
  · rename_i rest heq
    exfalso
    rw [heq] at hd
    simp [List.all_cons] at hd
  · rename_i rest heq
    exfalso
    rw [heq] at hd
    simp [List.all_cons] at hd
  · rename_i rest heq
    exfalso
    rw [heq] at hd
    simp [List.all_cons] at hd
  · rename_i rest heq
    exfalso
    rw [heq] at hd
    simp [List.all_cons] at hd
  · simp only []
    rw [takeWhile_of_all s.data hd]
    have he : s.data.isEmpty = false := by
      cases h : s.data with
      | nil => exact absurd h hne
      | cons a b => rfl
    rw [he]
    simp

theorem sortLe_of_blank_right (cfg : SortConfig) (a b : LBRecord)
    (ha : isBlankIn cfg.column a = false) (hb : isBlankIn cfg.column b = true) :
    sortLe cfg a b = true := by
  have ha' : ¬(getCellValue a.element cfg.column = CellValue.str "") :=
    of_decide_eq_false ha
  have hb' : getCellValue b.element cfg.column = CellValue.str "" :=
    of_decide_eq_true hb
  unfold sortLe sortCompare
  simp [ha', hb']

theorem sortLe_of_blank_left (cfg : SortConfig) (a b : LBRecord)
    (ha : isBlankIn cfg.column a = true) (hb : isBlankIn cfg.column b = false) :
    sortLe cfg a b = false := by
  have ha' : getCellValue a.element cfg.column = CellValue.str "" :=
    of_decide_eq_true ha
  have hb' : ¬(getCellValue b.element cfg.column = CellValue.str "") :=
    of_decide_eq_false hb
  unfold sortLe sortCompare
  simp [ha', hb']

/-! ### Claim theorems -/

/-- C9 (counterexample): the claim reads blankness off the cell's text
(empty or the placeholder `-`).  In the rank column (index 0) the special
rank coercion turns a `-` cell of a row attached at position 0 into the
numeric value 1, which sorts *before* the non-blank literal 5 in ascending
order — so a blank-texted cell does not appear after all non-blank cells. -/
theorem c9_counterexample :
    (recDash.element.cells.map Cell.text = ["-"]) ∧
    (recFive.element.cells.map Cell.text = ["5"]) ∧
    getCellValue recDash.element 0 = CellValue.num 1 ∧
    isBlankIn 0 recDash = false ∧
    sortData ⟨0, SortDirection.asc⟩ [recDash, recFive] = [recDash, recFive] := by
  refine ⟨by decide, by decide, by decide, by decide, by decide⟩

/-- C9 (amended): with blankness read off the *coerced* cell value (the
comparator's own notion: empty text or `-` outside the special rank
handling), every blank-valued record is placed after every non-blank one,
in both sort directions, whenever an actual column is selected. -/
theorem c9_amended (cfg : SortConfig) (data : List LBRecord) (h : cfg.column ≠ -1) :
    List.Pairwise
      (fun a b => isBlankIn cfg.column a = true → isBlankIn cfg.column b = true)
      (sortData cfg data) := by
  unfold sortData
  rw [if_neg h]
  exact pairwise_sortWith (isBlankIn cfg.column) (sortLe cfg)
    (fun a b ha hb => sortLe_of_blank_right cfg a b ha hb)
    (fun a b ha hb => sortLe_of_blank_left cfg a b ha hb)
    data

theorem c9_amended_witness :
    (0 : Int) ≠ -1 ∧
    List.Pairwise (fun a b => isBlankIn 0 a = true → isBlankIn 0 b = true)
      (sortData ⟨0, SortDirection.asc⟩ [recDash, recFive]) :=
  ⟨by decide, c9_amended ⟨0, SortDirection.asc⟩ [recDash, recFive] (by decide)⟩

/-- C10: `sortData` is pure on the record sequence: its output is a
permutation of its input (same length, same records), and with the
unsorted sentinel column −1 it returns the input sequence itself, in its
original order.  (Absence of in-place mutation is inherent to the value
semantics of the embedding: the input list is never altered.) -/
theorem c10_sortData_pure (cfg : SortConfig) (data : List LBRecord) :
    List.Perm (sortData cfg data) data ∧
    (cfg.column = -1 → sortData cfg data = data) := by
  constructor
  · unfold sortData
    by_cases h : cfg.column = -1
    · rw [if_pos h]
    · rw [if_neg h]
      exact perm_sortWith (sortLe cfg) data
  · intro h
    unfold sortData
    rw [if_pos h]

theorem c10_witness :
    List.Perm (sortData ⟨-1, SortDirection.asc⟩ [recDash, recFive]) [recDash, recFive] ∧
    ((⟨-1, SortDirection.asc⟩ : SortConfig).column = -1 →
      sortData ⟨-1, SortDirection.asc⟩ [recDash, recFive] = [recDash, recFive]) :=
  c10_sortData_pure ⟨-1, SortDirection.asc⟩ [recDash, recFive]

/-- C4: calling `loadAllPages` while the in-progress flag is set starts no
second run: no page is fetched, the current accumulation is returned
unchanged, the table body is untouched and the state is unchanged. -/
theorem c4_reentrant (env : FetchEnv) (st : LoaderState)
    (h : st.isLoadingAllPages = true) :
    (loadAllPages env st).result = st.allPagesData ∧
    (loadAllPages env st).fetched = [] ∧
    (loadAllPages env st).tableWritten = false ∧
    (loadAllPages env st).finalTbody = env.currentRows ∧
    (loadAllPages env st).finalState = st := by
  have hrun : loadAllPages env st =
      { result := st.allPagesData, outcome := .reentrant, tableWritten := false
        alerted := false, fetched := [], finalTbody := env.currentRows
        finalState := st } := by
    unfold loadAllPages
    rw [h]
    simp
  rw [hrun]
  exact ⟨rfl, rfl, rfl, rfl, rfl⟩

theorem c4_reentrant_witness :
    (loadAllPages c4Env ⟨true, false, []⟩).result = [] ∧
    (loadAllPages c4Env ⟨true, false, []⟩).fetched = [] ∧
    (loadAllPages c4Env ⟨true, false, []⟩).tableWritten = false ∧
    (loadAllPages c4Env ⟨true, false, []⟩).finalTbody = c4Env.currentRows ∧
    (loadAllPages c4Env ⟨true, false, []⟩).finalState = ⟨true, false, []⟩ :=
  c4_reentrant c4Env ⟨true, false, []⟩ rfl

/-- C3: an aggregation run whose abort flag is observed at the loop
iteration for page `a` (2 ≤ a ≤ N) returns the accumulation gathered so
far (current page plus pages `2..a-1`) as-is, performs no merge into the
table, and leaves the table body's rows — hence their count — exactly as
before the run. -/
theorem c3_cancel_leaves_table (env : FetchEnv) (st : LoaderState) (a : Nat)
    (h1 : st.isLoadingAllPages = false) (h2 : 1 < env.totalPages)
    (ha : env.abortAt = some a) (ha2 : 2 ≤ a) (ha3 : a ≤ env.totalPages) :
    (loadAllPages env st).outcome = .cancelled ∧
    (loadAllPages env st).tableWritten = false ∧
    (loadAllPages env st).finalTbody = env.currentRows ∧
    (loadAllPages env st).result =
      parseRowsIdx env.currentRows ++ expectedPages env (List.range' 2 (a - 2)) := by
  have hsplit : List.range' 2 (env.totalPages - 1) =
      List.range' 2 (a - 2) ++ a :: List.range' (a + 1) (env.totalPages - a) := by
    have h4 : List.range' 2 (a - 2) ++ List.range' (2 + (a - 2)) (env.totalPages - a + 1) =
        List.range' 2 (env.totalPages - a + 1 + (a - 2)) := List.range'_append_1 _ _ _
    have h5 : 2 + (a - 2) = a := by omega
    have h6 : env.totalPages - a + 1 + (a - 2) = env.totalPages - 1 := by omega
    rw [h5, h6] at h4
    rw [← h4, List.range'_succ]
  have hrun : loadAllPages env st =
      { result := parseRowsIdx env.currentRows ++ expectedPages env (List.range' 2 (a - 2))
        outcome := .cancelled, tableWritten := false, alerted := false
        fetched := [] ++ List.range' 2 (a - 2), finalTbody := env.currentRows
        finalState := ⟨false, false,
          parseRowsIdx env.currentRows ++ expectedPages env (List.range' 2 (a - 2))⟩ } := by
    unfold loadAllPages
    rw [h1]
    simp only [Bool.false_eq_true, if_false]
    rw [if_neg (by omega : ¬ env.totalPages ≤ 1)]
    rw [hsplit]
    exact loadLoop_cancel env (List.range' 2 (a - 2)) (List.range' (a + 1) (env.totalPages - a))
      a (parseRowsIdx env.currentRows) []
      (fun p hp => by
        rcases List.mem_range'_1.mp hp with ⟨_, hlt⟩
        unfold abortedObs
        rw [ha]
        simp only [decide_eq_false_iff_not]
        omega)
      (by unfold abortedObs; rw [ha]; simp)
  rw [hrun]
  exact ⟨rfl, rfl, rfl, rfl⟩

theorem c3_cancel_witness :
    st0.isLoadingAllPages = false ∧ 1 < c3CexEnv.totalPages ∧
    c3CexEnv.abortAt = some 4 ∧ 2 ≤ 4 ∧ 4 ≤ c3CexEnv.totalPages ∧
    ((loadAllPages c3CexEnv st0).outcome = .cancelled ∧
     (loadAllPages c3CexEnv st0).tableWritten = false ∧
     (loadAllPages c3CexEnv st0).finalTbody = c3CexEnv.currentRows ∧
     (loadAllPages c3CexEnv st0).result =
       parseRowsIdx c3CexEnv.currentRows ++ expectedPages c3CexEnv (List.range' 2 2)) :=
  ⟨rfl, by decide, rfl, by decide, by decide,
    c3_cancel_leaves_table c3CexEnv st0 4 rfl (by decide) rfl (by decide) (by decide)⟩

/-- C2 (counterexample): with two pages and both the GET and the POST
fetch of page 2 failing, the run is *not* aborted: it completes, raises no
alert, and performs the merge into the table body; the failed page simply
contributes no records.  (`loadPageData` converts every fetch failure into
an empty resolved list, so the `catch`/alert path cannot be reached from
fetch failures.) -/
theorem c2_counterexample :
    c2CexEnv.getOutcome 2 = .error () ∧ c2CexEnv.postOutcome 2 = .error () ∧
    (loadAllPages c2CexEnv st0).outcome = .completed ∧
    (loadAllPages c2CexEnv st0).alerted = false ∧
    (loadAllPages c2CexEnv st0).tableWritten = true ∧
    (loadAllPages c2CexEnv st0).result = parseRowsIdx [rowA] := by
  refine ⟨rfl, rfl, by decide, by decide, by decide, by decide⟩

/-- C2 (amended): a page whose GET and POST fetches both fail yields the
empty record list, the run continues with the remaining pages and
completes: the table body is rewritten from the accumulated records and no
alert is raised (the alert branch is reachable only from exceptions
outside the per-page fetch path, which resolves instead of rejecting). -/
theorem c2_failed_page_skipped (env : FetchEnv) (st : LoaderState)
    (h1 : st.isLoadingAllPages = false) (h2 : 1 < env.totalPages)
    (h3 : env.abortAt = none) :
    (∀ p, env.getOutcome p = .error () → env.postOutcome p = .error () →
      loadPageData env p = []) ∧
    (loadAllPages env st).outcome = .completed ∧
    (loadAllPages env st).alerted = false ∧
    (loadAllPages env st).tableWritten = true ∧
    (loadAllPages env st).result =
      parseRowsIdx env.currentRows ++ expectedPages env (List.range' 2 (env.totalPages - 1)) := by
  have hrun : loadAllPages env st =
      { result := parseRowsIdx env.currentRows ++
          expectedPages env (List.range' 2 (env.totalPages - 1))
        outcome := .completed, tableWritten := true, alerted := false
        fetched := [] ++ List.range' 2 (env.totalPages - 1)
        finalTbody := (parseRowsIdx env.currentRows ++
          expectedPages env (List.range' 2 (env.totalPages - 1))).map LBRecord.element
        finalState := ⟨false, false, parseRowsIdx env.currentRows ++
          expectedPages env (List.range' 2 (env.totalPages - 1))⟩ } := by
    unfold loadAllPages
    rw [h1]
    simp only [Bool.false_eq_true, if_false]
    rw [if_neg (by omega : ¬ env.totalPages ≤ 1)]
    exact loadLoop_complete env h3 _ _ _
  refine ⟨?_, by rw [hrun], by rw [hrun], by rw [hrun], by rw [hrun]⟩
  intro p hg hp
  unfold loadPageData loadPageDataGETResult
  rw [hg, hp]
  simp

theorem c2_amended_witness :
    st0.isLoadingAllPages = false ∧ 1 < c2CexEnv.totalPages ∧
    c2CexEnv.abortAt = none ∧
    (loadAllPages c2CexEnv st0).outcome = .completed ∧
    (loadAllPages c2CexEnv st0).tableWritten = true :=
  ⟨rfl, by decide, rfl,
    (c2_failed_page_skipped c2CexEnv st0 rfl (by decide) rfl).2.1,
    (c2_failed_page_skipped c2CexEnv st0 rfl (by decide) rfl).2.2.2.1⟩

/-- C5 (counterexample): for the cell text `1:23:45`, `parseTableRow`
stores the full text as `time` but computes `timeInSeconds` from the first
`digits:digits` pair only (1 minute 23 seconds = 83); the H:MM:SS
decomposition named by the claim is 5025. -/
theorem c5_counterexample :
    (parseTableRow c5CexRow 0).map LBRecord.time = some "1:23:45" ∧
    (parseTableRow c5CexRow 0).map LBRecord.timeInSeconds = some 83 ∧
    specTimeDecomposition "1:23:45" = 5025 ∧ (83 : Nat) ≠ 5025 :=
  ⟨by decide, by decide, by decide, by decide⟩

/-- C5 (amended): for every row `parseTableRow` accepts, `timeInSeconds`
equals `parseTimeToSeconds` of the `time` field — the first
`digits:digits` occurrence read as minutes:seconds (so an `H:MM:SS`
display reads its leading `H:MM` as `MM:SS` and ignores the trailing
seconds) — and `timeInSeconds` is 0 whenever `time` is empty. -/
theorem c5_amended (row : LBRow) (idx : Nat) (r : LBRecord)
    (h : parseTableRow row idx = some r) :
    r.timeInSeconds = parseTimeToSeconds r.time ∧
    (r.time = "" → r.timeInSeconds = 0) := by
  have key : r.timeInSeconds = parseTimeToSeconds r.time := by
    rcases row with ⟨cells, ti⟩
    cases cells with
    | nil => simp [parseTableRow] at h
    | cons c0 rest0 =>
      cases rest0 with
      | nil => simp [parseTableRow] at h
      | cons c1 rest1 =>
        cases rest1 with
        | nil => simp [parseTableRow] at h
        | cons c2 rest2 =>
          simp only [parseTableRow, Option.some.injEq] at h
          rw [← h]
          exact timeScanGo_inv _
  refine ⟨key, fun he => ?_⟩
  rw [key, he]
  decide

theorem c5_amended_witness :
    parseTableRow c5WRow 0 = some c5WRec ∧
    (c5WRec.timeInSeconds = parseTimeToSeconds c5WRec.time ∧
     (c5WRec.time = "" → c5WRec.timeInSeconds = 0)) :=
  ⟨by decide, c5_amended c5WRow 0 c5WRec (by decide)⟩

/-- C6 (counterexample): a rank cell with literal text `5` *and* an avatar
marker yields rank 1, not the literal 5 — the avatar takes precedence over
the text, contrary to the claimed chain; and a rank cell with literal text
`-3` (no avatar) yields rank −3, violating "always ≥ 1". -/
theorem c6_counterexample :
    (c6RowAvatar.cells.map Cell.text).head? = some "5" ∧ jsTrim "5" ≠ "" ∧
    (parseTableRow c6RowAvatar 0).map LBRecord.rank = some 1 ∧ (1 : Int) ≠ 5 ∧
    (parseTableRow c6RowNeg 0).map LBRecord.rank = some (-3) ∧ ¬ (1 : Int) ≤ -3 :=
  ⟨by decide, by decide, by decide, by decide, by decide, by decide⟩

/-- C6 (amended): the precedence chain actually implemented is: (a) an
avatar-like marker forces rank 1 (even over literal text); else (b)
non-empty text parsing via `parseInt` to a nonzero value gives that value;
else (c) `positionalIndex + 1`.  The result is ≥ 1 whenever the rank
cell's trimmed text consists of digits only (in particular it can be
negative for a literal negative number). -/
theorem c6_amended (c0 c1 c2 : Cell) (rest : List Cell) (ti : Option Int) (idx : Nat) :
    (c0.hasAvatar = true →
      (parseTableRow ⟨c0 :: c1 :: c2 :: rest, ti⟩ idx).map LBRecord.rank = some 1) ∧
    (c0.hasAvatar = false → jsTrim c0.text = "" →
      (parseTableRow ⟨c0 :: c1 :: c2 :: rest, ti⟩ idx).map LBRecord.rank =
        some ((idx : Int) + 1)) ∧
    (∀ n : Int, c0.hasAvatar = false → jsTrim c0.text ≠ "" →
      jsParseInt (jsTrim c0.text) = some n → n ≠ 0 →
      (parseTableRow ⟨c0 :: c1 :: c2 :: rest, ti⟩ idx).map LBRecord.rank = some n) ∧
    ((jsTrim c0.text).data.all Char.isDigit = true →
      ∀ m : Int, (parseTableRow ⟨c0 :: c1 :: c2 :: rest, ti⟩ idx).map LBRecord.rank = some m →
        1 ≤ m) := by
  have hmap : (parseTableRow ⟨c0 :: c1 :: c2 :: rest, ti⟩ idx).map LBRecord.rank =
      some (rankFrom c0 idx) := rfl
  refine ⟨?_, ?_, ?_, ?_⟩
  · intro hav
    rw [hmap]
    unfold rankFrom
    simp [hav]
  · intro hav he
    rw [hmap]
    unfold rankFrom
    simp [hav, he]
  · intro n hav hne hparse hn
    rw [hmap]
    unfold rankFrom
    simp [hav, hne, hparse, hn]
  · intro hdig m hm
    rw [hmap, Option.some.injEq] at hm
    rw [← hm]
    unfold rankFrom
    by_cases hav : c0.hasAvatar = true
    · simp [hav]
    · have hav' : c0.hasAvatar = false := Bool.eq_false_iff.mpr hav
      by_cases he : jsTrim c0.text = ""
      · simp [hav', he]
      · have hdata : (jsTrim c0.text).data ≠ [] :=
          fun hd => he (String.ext (by simp [hd]))
        have hp := jsParseInt_all_digits (jsTrim c0.text) hdig hdata
        by_cases hz : (natOfDigits (jsTrim c0.text).data : Int) = 0
        · simp [hav', he, hp, hz]
        · simp [hav', he, hp, hz]
          omega

def c6WCell : Cell := ⟨"7", false, none, none⟩

theorem c6_amended_witness :
    c6WCell.hasAvatar = false ∧ jsTrim c6WCell.text ≠ "" ∧
    jsParseInt (jsTrim c6WCell.text) = some 7 ∧ (7 : Int) ≠ 0 ∧
    (parseTableRow ⟨[c6WCell, cellAthlete, cellPlain], none⟩ 0).map LBRecord.rank = some 7 :=
  ⟨rfl, by decide, by decide, by decide,
    (c6_amended c6WCell cellAthlete cellPlain [] none 0).2.2.1 7 rfl (by decide)
      (by decide) (by decide)⟩

/-- C7 (counterexample): a scanned cell `1,234.5 km/h` yields
`speed = 234.5` (= `mkRat 2345 10`), not the claimed 1234.5
(= `mkRat 12345 10`): the speed pattern has no thousands-separator
support, so the match starts after the comma.  The heart-rate and power
parts of the claim hold (185 and 250). -/
theorem c7_counterexample :
    (parseTableRow c7CexRow 0).map LBRecord.speed = some (mkRat 2345 10) ∧
    mkRat 2345 10 ≠ mkRat 12345 10 ∧
    (parseTableRow c7CexRow 0).map LBRecord.heartRate = some (some 185) ∧
    (parseTableRow c7CexRow 0).map LBRecord.power = some (some 250) :=
  ⟨by decide, by decide, by decide, by decide⟩

/-- C7 (amended): in any row whose scanned window presents the cells
`1,234.5 km/h`, `185 bpm`, `250W` (first matches in scan order), the
record carries `speed = 234.5` (the digits after the comma),
`heartRate = 185` and `power = 250`, independently of the first two cells
and of any trailing cells. -/
theorem c7_amended (c0 c1 : Cell) (rest : List Cell) (ti : Option Int) (idx : Nat) :
    (parseTableRow ⟨c0 :: c1 :: ⟨"1,234.5 km/h", false, none, none⟩ ::
        ⟨"185 bpm", false, none, none⟩ :: ⟨"250W", false, none, none⟩ :: rest, ti⟩ idx).map
      LBRecord.speed = some (mkRat 2345 10) ∧
    (parseTableRow ⟨c0 :: c1 :: ⟨"1,234.5 km/h", false, none, none⟩ ::
        ⟨"185 bpm", false, none, none⟩ :: ⟨"250W", false, none, none⟩ :: rest, ti⟩ idx).map
      LBRecord.heartRate = some (some 185) ∧
    (parseTableRow ⟨c0 :: c1 :: ⟨"1,234.5 km/h", false, none, none⟩ ::
        ⟨"185 bpm", false, none, none⟩ :: ⟨"250W", false, none, none⟩ :: rest, ti⟩ idx).map
      LBRecord.power = some (some 250) :=
  ⟨rfl, rfl, rfl⟩

theorem containersLoop_ge : ∀ (cs : List (Option PagContainer)) (m : Nat),
    m ≤ containersLoop cs m := by
  intro cs
  induction cs with
  | nil => intro m; exact Nat.le_refl m
  | cons hd rest ih =>
    intro m
    cases hd with
    | none => exact ih m
    | some c =>
      have hm2 : m ≤ containerFold c m := by
        unfold containerFold
        exact Nat.le_trans (foldMax_ge _ m) (foldMaxLt_ge _ _)
      unfold containersLoop
      by_cases h : 1 < containerFold c m
      · rw [if_pos h]
        exact hm2
      · rw [if_neg h]
        exact Nat.le_trans hm2 (ih _)

/-- C8 (counterexample): a pagination container whose anchors carry
`page=2` and `page=5000` makes `getTotalPages` return 5000 — a number
≥ 1000 that the claim says is ignored as a false positive (the `< 1000`
guard applies only to numbers harvested from the container's text, not to
`page=` parameters of hrefs). -/
theorem c8_counterexample :
    getTotalPages c8CexEnv = 5000 ∧ ¬ (5000 < 1000) :=
  ⟨by decide, by decide⟩

/-- C8 (amended): `getTotalPages` always returns ≥ 1; and for the first
pagination container that yields a maximum above 1, the result is that
container's maximum, computed by raising the current maximum through the
hrefs' `page=` numbers with *no* upper bound, and through the container's
text numbers only when they are `< 1000`.  In particular the spec's
positive example (links `page=1..7` in any order with text distractors
≥ 1000) yields 7 — see the witness. -/
theorem c8_amended :
    (∀ env : PagesEnv, 1 ≤ getTotalPages env) ∧
    (∀ (c : PagContainer) (rest : List (Option PagContainer)) (dl : List String),
      1 < containerMaxOf c →
      getTotalPages ⟨some c :: rest, dl⟩ = containerMaxOf c) := by
  constructor
  · intro env
    simp only [getTotalPages]
    by_cases h : containersLoop env.containers 1 = 1
    · rw [if_pos h, h]
      exact foldMax_ge _ 1
    · rw [if_neg h]
      exact containersLoop_ge env.containers 1
  · intro c rest dl h
    have h' : 1 < containerFold c 1 := h
    have hloop : containersLoop (some c :: rest) 1 = containerMaxOf c := by
      show (if 1 < containerFold c 1 then containerFold c 1
            else containersLoop rest (containerFold c 1)) = containerMaxOf c
      rw [if_pos h']
      rfl
    simp only [getTotalPages, hloop]
    rw [if_neg (by omega : ¬ containerMaxOf c = 1)]

theorem c8_amended_witness :
    1 < containerMaxOf c8GoodContainer ∧
    getTotalPages ⟨[some c8GoodContainer, none, none, none, none, none], []⟩ =
      containerMaxOf c8GoodContainer ∧
    containerMaxOf c8GoodContainer = 7 :=
  ⟨by decide,
    c8_amended.2 c8GoodContainer [none, none, none, none, none] [] (by decide),
    by decide⟩

/-- C1 (counterexample): the POST form body built by
`buildFilteredPageRequest` carries, next to the page number, every entry
of the discovered form data — here the hidden form input
`athlete[dateofbirth(3i)]` and the URL-derived `segment_id` — neither of
which is in the claimed allow-list; so the claim's "only allow-listed
names besides page and the CSRF token" fails for the POST request. -/
theorem c1_counterexample :
    "segment_id" ∈ (buildFilteredPageRequest c1CexEnv 2).body.map Prod.fst ∧
    "athlete[dateofbirth(3i)]" ∈ (buildFilteredPageRequest c1CexEnv 2).body.map Prod.fst ∧
    "segment_id" ∉ allowedParamsGET ∧
    "athlete[dateofbirth(3i)]" ∉ allowedParamsGET ∧
    "segment_id" ≠ "page" ∧ "segment_id" ≠ "authenticity_token" :=
  ⟨by decide, by decide, by decide, by decide, by decide, by decide⟩

theorem importantParams_subset :
    ∀ p ∈ importantParamsGET, p ∈ allowedParamsGET := by
  intro p hp
  fin_cases hp <;> decide

/-- C1 (amended): only the GET request is allow-listed: every query
parameter name of the URL built by `loadPageDataGET` is `page` or one of
the seven allow-listed names (`partial` is among them); the POST fallback
body is not so restricted (see the counterexample). -/
theorem c1_amended (env : PageDomEnv) (page : Nat) :
    ∀ kv ∈ loadPageDataGETParams env page,
      kv.1 = "page" ∨ kv.1 ∈ allowedParamsGET := by
  unfold loadPageDataGETParams
  have hbase : ∀ kv ∈ objSet (objSet ([] : List (String × String)) "page" (toString page))
      "partial" "true", kv.1 = "page" ∨ kv.1 ∈ allowedParamsGET := by
    refine objSet_keys (P := fun s => s = "page" ∨ s ∈ allowedParamsGET) ?_ ?_
    · refine objSet_keys (P := fun s => s = "page" ∨ s ∈ allowedParamsGET) ?_ ?_
      · intro kv hkv
        exact absurd hkv (List.not_mem_nil kv)
      · exact Or.inl rfl
    · exact Or.inr (by decide)
  have hstep1 : ∀ (acc : List (String × String)) (kv : String × String),
      kv ∈ (getFilterRequestData env).2 →
      (∀ kv' ∈ acc, kv'.1 = "page" ∨ kv'.1 ∈ allowedParamsGET) →
      ∀ kv' ∈ getParamsFilterStep acc kv,
        kv'.1 = "page" ∨ kv'.1 ∈ allowedParamsGET := by
    intro acc kv _ hacc
    unfold getParamsFilterStep
    by_cases hc : (kv.2 ≠ "" && kv.1 ≠ "page" && allowedParamsGET.contains kv.1) = true
    · rw [if_pos hc]
      exact objSet_keys (P := fun s => s = "page" ∨ s ∈ allowedParamsGET) hacc
        (Or.inr (List.mem_of_elem_eq_true (Bool.and_elim_right hc)))
    · rw [if_neg hc]
      exact hacc
  have hstep2 : ∀ (acc : List (String × String)) (p : String),
      p ∈ importantParamsGET →
      (∀ kv' ∈ acc, kv'.1 = "page" ∨ kv'.1 ∈ allowedParamsGET) →
      ∀ kv' ∈ getParamsImportantStep env acc p,
        kv'.1 = "page" ∨ kv'.1 ∈ allowedParamsGET := by
    intro acc p hp hacc
    unfold getParamsImportantStep
    cases hlk : lookupFirst env.location.params p with
    | none => exact hacc
    | some v =>
      dsimp only
      by_cases hc : (v ≠ "" && !(acc.any (fun kv => kv.1 = p))) = true
      · rw [if_pos hc]
        exact objSet_keys (P := fun s => s = "page" ∨ s ∈ allowedParamsGET) hacc
          (Or.inr (importantParams_subset p hp))
      · rw [if_neg hc]
        exact hacc
  exact foldl_preserve_mem
    (fun ps : List (String × String) => ∀ kv ∈ ps, kv.1 = "page" ∨ kv.1 ∈ allowedParamsGET)
    (getParamsImportantStep env)
    importantParamsGET
    ((getFilterRequestData env).2.foldl getParamsFilterStep
      (objSet (objSet [] "page" (toString page)) "partial" "true"))
    hstep2
    (foldl_preserve_mem
      (fun ps : List (String × String) => ∀ kv ∈ ps, kv.1 = "page" ∨ kv.1 ∈ allowedParamsGET)
      getParamsFilterStep
      (getFilterRequestData env).2
      (objSet (objSet [] "page" (toString page)) "partial" "true")
      hstep1
      hbase)

theorem c1_amended_witness :
    ("partial", "true") ∈ loadPageDataGETParams c1CexEnv 2 ∧
    ((("partial", "true") : String × String).1 = "page" ∨
     (("partial", "true") : String × String).1 ∈ allowedParamsGET) :=
  ⟨by decide, c1_amended c1CexEnv 2 ("partial", "true") (by decide)⟩
